import Mathlib

/-!
Shallow embedding of `codepage_formatter.py` (class `CodepageFormatter`).

Python strings are modelled as `List Char` (the file is ASCII-decoded, so
code points and Python string indices agree), Python dicts over string keys
as insertion-ordered association lists, and raised exceptions as an
`Option Exc` component (`Exc` is the exception class name) or an
`Except Exc` result.
-/

abbrev Exc := String

/-- Python `str.strip` whitespace test, restricted to the ASCII range that an
`ascii`-decoded string can contain: `" \t\n\r\x0b\x0c"`. -/
def pySpace (c : Char) : Bool :=
  c = ' ' || c = '\t' || c = '\n' || c = '\r' || c = '\x0b' || c = '\x0c'

/-- Python `str.strip()`: drop leading and trailing whitespace. -/
def pyStrip (cs : List Char) : List Char :=
  ((cs.dropWhile pySpace).reverse.dropWhile pySpace).reverse

/-- Python `str.split(sep)` for a one-character separator `sep`:
no collapsing of empty fields, `"".split(sep) == [""]`. -/
def pySplit (sep : Char) : List Char → List (List Char)
  | [] => [[]]
  | c :: cs =>
    if c = sep then [] :: pySplit sep cs
    else
      match pySplit sep cs with
      | [] => [[c]]
      | s :: ss => (c :: s) :: ss

/-- The character class `[0-9A-F]` of the record-line regex
`^[0-9A-F]{2} .*$` in `_parse_ibm_file`. -/
def isUpperHex (c : Char) : Bool :=
  ('0' ≤ c && c ≤ '9') || ('A' ≤ c && c ≤ 'F')

/-- The items yielded by the generator `_parse_ibm_file`: a header line
yields the plain string `line.split(":")[1].strip()`, a record line yields
the pair `("0x" + line[:2], line[19:].strip())`. -/
inductive IbmItem where
  | header (value : List Char)
  | record (hexNumber : List Char) (description : List Char)
deriving DecidableEq, Repr

/-- The literal marker `"* Code Page"` tested by `line.startswith`. -/
def markerChars : List Char := "* Code Page".data

/-- Outcome of `_parse_ibm_file`'s loop body on one line: yield an item,
silently skip the line, or raise an exception. -/
inductive LineResult where
  | item (it : IbmItem)
  | skip
  | exc (e : Exc)
deriving DecidableEq, Repr

/-- One iteration of the loop in `_parse_ibm_file` (lines 119-128 of the
source).  A line starting with `"* Code Page"` yields
`line.split(":")[1].strip()`; indexing `[1]` raises `IndexError` when the
line has no colon (this branch is outside the `try`).  A line matching
`^[0-9A-F]{2} .*$` yields `("0x" + line[:2], line[19:].strip())`; nothing in
that `try` block can raise, so the `except: pass` is never taken.  Any other
line is skipped. -/
def parseLine (cs : List Char) : LineResult :=
  if markerChars.isPrefixOf cs then
    match (pySplit ':' cs).get? 1 with
    | none => .exc "IndexError"
    | some v => .item (.header (pyStrip v))
  else
    match cs with
    | c0 :: c1 :: ' ' :: _ =>
      if isUpperHex c0 && isUpperHex c1 then
        .item (.record ('0' :: 'x' :: [c0, c1]) (pyStrip (cs.drop 19)))
      else .skip
    | _ => .skip

/-- Driver of `_parse_ibm_file` over `text.split("\n")`.  Because the
function is a generator, the items yielded before an exception are observed
by the consumer, so the result is the yielded prefix together with the
exception (if any) that ends the iteration. -/
def parseLinesAcc : List (List Char) → List IbmItem → List IbmItem × Option Exc
  | [], acc => (acc, none)
  | l :: ls, acc =>
    match parseLine l with
    | .item it => parseLinesAcc ls (acc ++ [it])
    | .skip => parseLinesAcc ls acc
    | .exc e => (acc, some e)

/-- `_parse_ibm_file` applied to the already-ASCII-decoded text of the
retrieved file. -/
def parse_ibm_file (text : List Char) : List IbmItem × Option Exc :=
  parseLinesAcc (pySplit '\n' text) []

/-- `data.decode("ascii")` on the raw bytes: succeeds iff every byte is
below 128. -/
def asciiDecode (bs : List Nat) : Option (List Char) :=
  if bs.all (· < 128) then some (bs.map (Char.ofNat ·)) else none

/-- `_parse_ibm_file` from the raw retrieved bytes: `data.decode("ascii")`
raises `UnicodeDecodeError` on a non-7-bit byte (inside the generator, so
before any item is yielded). -/
def parse_ibm_bytes (bs : List Nat) : List IbmItem × Option Exc :=
  match asciiDecode bs with
  | none => ([], some "UnicodeDecodeError")
  | some text => parse_ibm_file text

/-- Python dict assignment `d[k] = v`: replace the value in place when the
key exists, otherwise append the new pair (insertion order preserved). -/
def dictInsert (d : List (List Char × List Char)) (k v : List Char) :
    List (List Char × List Char) :=
  if d.any (fun p => p.1 = k) then
    d.map (fun p => if p.1 = k then (p.1, v) else p)
  else d ++ [(k, v)]

/-- Python `d.update(e)`: assign every pair of `e` into `d` in order
(overwriting on key collision). -/
def dictUpdate (d e : List (List Char × List Char)) :
    List (List Char × List Char) :=
  e.foldl (fun acc p => dictInsert acc p.1 p.2) d

/-- Python dict lookup `d[k]` as an `Option` (a `none` is a `KeyError` at
the call site). -/
def dictGet (d : List (List Char × List Char)) (k : List Char) :
    Option (List Char) :=
  (d.find? (fun p => p.1 = k)).map (fun p => p.2)

/-- Tuple unpacking `hex_number, description = item` performed by the `for`
loops of `_get_unicode_by_description` and `write_codepage_map`.  A record
item unpacks into its pair.  A header item is a plain string: unpacking it
succeeds only when it has length 2 (giving its two one-character pieces) and
raises `ValueError` otherwise. -/
def unpackItem : IbmItem → Except Exc (List Char × List Char)
  | .record h d => .ok (h, d)
  | .header v =>
    match v with
    | [a, b] => .ok ([a], [b])
    | _ => .error "ValueError"

/-- Value of one hexadecimal digit, both cases, as accepted by
`int(_, 16)`. -/
def hexVal (c : Char) : Option Nat :=
  if '0' ≤ c && c ≤ '9' then some (c.toNat - 48)
  else if 'A' ≤ c && c ≤ 'F' then some (c.toNat - 55)
  else if 'a' ≤ c && c ≤ 'f' then some (c.toNat - 87)
  else none

/-- Accumulate the value of a hex-digit string. -/
def hexAcc : List Char → Nat → Option Nat
  | [], acc => some acc
  | c :: cs, acc =>
    match hexVal c with
    | none => none
    | some v => hexAcc cs (16 * acc + v)

/-- Python `int(s, 16)` on the strings this program produces (an optional
`0x`/`0X` prefix followed by at least one hex digit); `none` models the
`ValueError` that `int` raises otherwise. -/
def pyInt16 (cs : List Char) : Option Nat :=
  match cs with
  | '0' :: 'x' :: rest => if rest.isEmpty then none else hexAcc rest 0
  | '0' :: 'X' :: rest => if rest.isEmpty then none else hexAcc rest 0
  | [] => none
  | _ => hexAcc cs 0

/-- `"0x" + "{:04x}".format(ord(c)).upper()`: the scalar value in lowercase
hex padded to at least four digits, uppercased, behind a lowercase `0x`. -/
def formatCodepoint (n : Nat) : List Char :=
  let ds := (Nat.toDigits 16 n).map Char.toUpper
  '0' :: 'x' :: (List.replicate (4 - ds.length) '0' ++ ds)

/-- Loop body of `_get_unicode_by_description` over the items the generator
yields after the discarded first one.  For each item:
`hex_number, description` unpacking, `bytes([int(hex_number, 16)])`
(raising `ValueError` when the value is not a byte),
`.decode(encoding)` (the caller-supplied known encoding, modelled as a
partial byte-to-character map; `none` is the propagated decode error), then
`ret[description] = "0x" + "{:04x}".format(ord(c)).upper()`. -/
def resolveRecords (enc : Nat → Option Char) :
    List IbmItem → List (List Char × List Char) →
      Except Exc (List (List Char × List Char))
  | [], acc => .ok acc
  | it :: rest, acc =>
    match unpackItem it with
    | .error e => .error e
    | .ok (h, d) =>
      match pyInt16 h with
      | none => .error "ValueError"
      | some n =>
        if n < 256 then
          match enc n with
          | none => .error "UnicodeDecodeError"
          | some c =>
            resolveRecords enc rest (dictInsert acc d (formatCodepoint c.toNat))
        else .error "ValueError"

/-- `_get_unicode_by_description(encoding, filename)` with the retrieved
file text passed explicitly.  `next(gen)` discards the first yielded item;
on an empty generator it surfaces the generator's own exception, or
`StopIteration` when the file simply contains no header or record line.
An exception raised by the generator after its last yielded item is hit
once the loop has consumed that item list. -/
def get_unicode_by_description (enc : Nat → Option Char) (text : List Char) :
    Except Exc (List (List Char × List Char)) :=
  match parse_ibm_file text with
  | ([], pexc) =>
    match pexc with
    | some e => .error e
    | none => .error "StopIteration"
  | (_ :: rest, pexc) =>
    match resolveRecords enc rest [] with
    | .error e => .error e
    | .ok acc =>
      match pexc with
      | some e => .error e
      | none => .ok acc

/-- The dict `self.data`.  The Python value is a JSON-shaped dict whose
keys may or may not be present (`__init__` creates `filenames` and
`unicode_by_description`; a loaded file may instead carry `encodings`), so
each field is an `Option`; `none` means the key is absent and any access
raises `KeyError`. -/
structure PFData where
  filenames : Option (List (List Char))
  encodings : Option (List (List Char))
  unicode_by_description : Option (List (List Char × List Char))
deriving DecidableEq, Repr

/-- `__init__`: `self.data = ('filenames': [], 'unicode_by_description': ())`
— the `encodings` key is absent. -/
def initData : PFData :=
  { filenames := some []
    encodings := none
    unicode_by_description := some [] }

/-- `update_description_map(encoding, filename)` as a state transformer.
`enc` is the decode map of the named Python encoding and `text` the
ASCII-decoded content of the retrieved file.  Returns the dict after the
call together with the exception it raises, if any: the membership test
`encoding in self.data['encodings']` raises `KeyError` when the key is
absent; otherwise, on a fresh encoding, `self.data['encodings']` is
appended to first, then `self.data['unicode_by_description']` is looked up
(KeyError possible) and `.update`d with the resolver's result (whose
exceptions propagate after the append has already happened). -/
def update_description_map (d : PFData) (encId : List Char)
    (enc : Nat → Option Char) (text : List Char) : PFData × Option Exc :=
  match d.encodings with
  | none => (d, some "KeyError")
  | some encs =>
    if encId ∈ encs then (d, none)
    else
      let d1 : PFData := { d with encodings := some (encs ++ [encId]) }
      match d1.unicode_by_description with
      | none => (d1, some "KeyError")
      | some ubd =>
        match get_unicode_by_description enc text with
        | .error e => (d1, some e)
        | .ok entries =>
          ({ d1 with unicode_by_description := some (dictUpdate ubd entries) },
            none)

/-- The observable states of the persisted description-map file when
`retrieve_description_map` opens it: the open/read fails with an `IOError`
(missing or unreadable file); the file is readable but `json.load` cannot
parse its contents; or it parses to a JSON object of the persisted shape,
carried as the resulting dict. -/
inductive FileState where
  | missing
  | invalid
  | valid (d : PFData)
deriving DecidableEq, Repr

/-- `retrieve_description_map()`: the `try` block catches `IOError` only, so
a missing or unreadable file leaves `self.data` unchanged, while a
`json.load` parse failure (`json.JSONDecodeError`, a `ValueError`, not an
`IOError`) propagates out of the method; a successful parse replaces
`self.data` wholesale. -/
def retrieve_description_map (cur : PFData) (f : FileState) :
    PFData × Option Exc :=
  match f with
  | .missing => (cur, none)
  | .invalid => (cur, some "ValueError")
  | .valid d => (d, none)

/-- JSON values, restricted to the shapes `json.dump(self.data)` can emit:
strings, arrays and objects. -/
inductive Json where
  | str (s : List Char)
  | arr (xs : List Json)
  | obj (kvs : List (List Char × Json))

/-- The persisted-file key `"filenames"`. -/
def keyF : List Char := "filenames".data

/-- The persisted-file key `"encodings"`. -/
def keyE : List Char := "encodings".data

/-- The persisted-file key `"unicode_by_description"`. -/
def keyU : List Char := "unicode_by_description".data

/-- `store_description_map()`: serializes the whole dict, each present key
emitted once, replacing any prior file contents. -/
def store_description_map (d : PFData) : Json :=
  .obj
    ((match d.filenames with
      | none => []
      | some fs => [(keyF, Json.arr (fs.map Json.str))]) ++
     (match d.encodings with
      | none => []
      | some es => [(keyE, Json.arr (es.map Json.str))]) ++
     (match d.unicode_by_description with
      | none => []
      | some u =>
        [(keyU, Json.obj (u.map (fun p => (p.1, Json.str p.2))))]))

/-- Lookup in a JSON object; a repeated key keeps the last value, as
`json.load` does. -/
def jlookup (kvs : List (List Char × Json)) (k : List Char) : Option Json :=
  kvs.foldl (fun acc p => if p.1 = k then some p.2 else acc) none

/-- Read a JSON array of strings back. -/
def jsonStrs : List Json → Option (List (List Char))
  | [] => some []
  | .str s :: rest => (jsonStrs rest).map (fun ss => s :: ss)
  | _ :: _ => none

/-- Read a JSON object of string values back as an ordered pair list. -/
def jsonPairs : List (List Char × Json) → Option (List (List Char × List Char))
  | [] => some []
  | (k, .str s) :: rest => (jsonPairs rest).map (fun ps => (k, s) :: ps)
  | _ :: _ => none

/-- Read one optional field of the persisted object: an absent key is a
`none` field, a present key must convert. -/
def jfield (kvs : List (List Char × Json)) (k : List Char)
    (conv : Json → Option α) : Option (Option α) :=
  match jlookup kvs k with
  | none => some none
  | some j => (conv j).map some

/-- Interpret a parsed JSON value as the persisted dict shape (the shape
`store_description_map` writes and `retrieve_description_map` reads
back). -/
def jsonToData : Json → Option PFData
  | .obj kvs =>
    match jfield kvs keyF
        (fun j => match j with | .arr xs => jsonStrs xs | _ => none) with
    | none => none
    | some fs =>
      match jfield kvs keyE
          (fun j => match j with | .arr xs => jsonStrs xs | _ => none) with
      | none => none
      | some es =>
        match jfield kvs keyU
            (fun j => match j with | .obj ps => jsonPairs ps | _ => none) with
        | none => none
        | some u => some { filenames := fs, encodings := es,
                           unicode_by_description := u }
  | _ => none

/-- One output line of `write_codepage_map`:
`"()\t()\t# ()\n".format(hex_number, unicode_by_description[description],
description.upper())`. -/
def fmtLine (h u d : List Char) : List Char :=
  h ++ '\t' :: u ++ '\t' :: '#' :: ' ' :: (d.map Char.toUpper) ++ ['\n']

/-- Loop body of `write_codepage_map` over the items after the discarded
first one: unpack, look `description` up in `unicode_by_description`
(`KeyError` when absent), and write the formatted line.  Returns the lines
written before the first exception, and that exception. -/
def writeRecords (ubd : List (List Char × List Char)) :
    List IbmItem → List (List Char) → List (List Char) × Option Exc
  | [], acc => (acc, none)
  | it :: rest, acc =>
    match unpackItem it with
    | .error e => (acc, some e)
    | .ok (h, d) =>
      match dictGet ubd d with
      | none => (acc, some "KeyError")
      | some u => writeRecords ubd rest (acc ++ [fmtLine h u d])

/-- `write_codepage_map(filename)` with the retrieved file text passed
explicitly, against a given `unicode_by_description` dict.  `next(gen)`
discards the first item (surfacing the generator's exception, or
`StopIteration` on an itemless file); the loop then writes one line per
remaining item until an exception stops it; a generator exception positioned
after its last yielded item fires once the loop has consumed the list.
Returns the lines present in the (partially) written file and the raised
exception, if any. -/
def write_codepage_map (ubd : List (List Char × List Char))
    (text : List Char) : List (List Char) × Option Exc :=
  match parse_ibm_file text with
  | ([], pexc) =>
    match pexc with
    | some e => ([], some e)
    | none => ([], some "StopIteration")
  | (_ :: rest, pexc) =>
    match writeRecords ubd rest [] with
    | (lines, some e) => (lines, some e)
    | (lines, none) => (lines, pexc)

/-- Does a parsed item come from a record line? -/
def isRecordItem : IbmItem → Bool
  | .record _ _ => true
  | .header _ => false

/-- Is an item a record whose description is present in the dict, so that
the rewriter's lookup `unicode_by_description[description]` succeeds? -/
def isResolvedRecord (ubd : List (List Char × List Char)) : IbmItem → Bool
  | .record _ d => (dictGet ubd d).isSome
  | .header _ => false

/-- The output line the rewriter emits for a resolved record item. -/
def fmtItem (ubd : List (List Char × List Char)) : IbmItem → List Char
  | .record h d => fmtLine h ((dictGet ubd d).getD []) d
  | .header _ => []

/-- A decode map with `enc 0x41 = some A`, as a concrete bootstrap
encoding for the test scenarios. -/
def encA : Nat → Option Char := fun n => if n = 65 then some 'A' else none

/-- The header line of the spec's bootstrap scenario. -/
def hdr923 : List Char := "* Code Page           : 923".data

/-- The record line of the spec's bootstrap scenario, verbatim: the
description text begins one space after the byte value. -/
def recLiteral : List Char :=
  "41 LATIN CAPITAL LETTER A                     ".data

/-- The spec's bootstrap scenario file: header line, then the verbatim
record line. -/
def textLiteral : List Char := hdr923 ++ '\n' :: recLiteral

/-- The bootstrap scenario's record line with the description placed in the
fixed-width field that starts at column 19 (`line[19:]`), as in the real
vendor layout. -/
def recFixed : List Char := "41 A               LATIN CAPITAL LETTER A".data

/-- The bootstrap scenario file with the fixed-width record line. -/
def textFixed : List Char := hdr923 ++ '\n' :: recFixed

/-- A dict state with an (empty) `encodings` key, as produced by loading a
persisted map of the shape `update_description_map` consumes. -/
def emptyMapData : PFData :=
  { filenames := some []
    encodings := some []
    unicode_by_description := some [] }

/-- The dict holding only the scenario's resolved description. -/
def ubdA : List (List Char × List Char) :=
  [("LATIN CAPITAL LETTER A".data, "0x0041".data)]

/-! ## Helper lemmas -/

theorem pySplit_of_not_mem (sep : Char) :
    ∀ xs : List Char, sep ∉ xs → pySplit sep xs = [xs]
  | [], _ => rfl
  | c :: cs, h => by
    have hc : ¬c = sep := fun e => h (e ▸ List.mem_cons_self c cs)
    have ih := pySplit_of_not_mem sep cs (fun m => h (List.mem_cons_of_mem _ m))
    simp [pySplit, hc, ih]

theorem pySplit_append_sep (sep : Char) :
    ∀ xs rest : List Char, sep ∉ xs →
      pySplit sep (xs ++ sep :: rest) = xs :: pySplit sep rest
  | [], _, _ => by simp [pySplit]
  | c :: cs, rest, h => by
    have hc : ¬c = sep := fun e => h (e ▸ List.mem_cons_self c cs)
    have ih := pySplit_append_sep sep cs rest
      (fun m => h (List.mem_cons_of_mem _ m))
    simp [pySplit, hc, ih]

/-! ## Claim theorems -/

/-- Claim C2, counterexample: a persisted-state file that is readable but
not parseable as JSON makes `retrieve_description_map` raise (the
`ValueError` from `json.load` is not an `IOError`, so the `except IOError`
clause does not catch it), contradicting the claim that loading never
raises for every state of the file. -/
theorem claim2_counterexample :
    retrieve_description_map initData FileState.invalid
        = (initData, some "ValueError") ∧
      (retrieve_description_map initData FileState.invalid).2 ≠ none := by
  exact ⟨rfl, by decide⟩

/-- Claim C2, amended: a missing or unreadable persisted-state file
(`IOError` on open/read) is caught and leaves the in-memory map at its
prior (default) value, but contents that cannot be parsed as JSON make
`retrieve_description_map` raise a `ValueError`, which propagates. -/
theorem claim2_amended (cur : PFData) :
    retrieve_description_map cur FileState.missing = (cur, none) ∧
      retrieve_description_map cur FileState.invalid
        = (cur, some "ValueError") :=
  ⟨rfl, rfl⟩

/-- Claim C3 (code bug): on the dict that `__init__` builds — which has the
key `filenames` but not the key `encodings` — every call of
`update_description_map` raises `KeyError` at the membership test
`encoding in self.data['encodings']`, for any encoding, decode map and file
text; the encoding is neither recorded nor are any entries merged. -/
theorem claim3_keyerror (encId : List Char) (enc : Nat → Option Char)
    (text : List Char) :
    update_description_map initData encId enc text
      = (initData, some "KeyError") := rfl

/-- Claim C5, counterexample: on the header line `"* Code Page : 9:23"`,
`line.split(":")[1].strip()` yields `"9"` — the segment between the first
and second colon — not `"9:23"`, everything after the first colon; so a
later colon is not part of the header value, contradicting the claim. -/
theorem claim5_counterexample :
    parseLine "* Code Page : 9:23".data
        = LineResult.item (IbmItem.header "9".data) ∧
      "9".data ≠ "9:23".data := by
  exact ⟨rfl, by decide⟩

/-- Claim C5, amended: for a line beginning with the literal marker
`"* Code Page"`, the parser yields as header value the text strictly
between the first and the second colon — or everything after the first
colon when the line has no second colon — trimmed of surrounding
whitespace. -/
theorem claim5_amended (p q r : List Char) (hp : ':' ∉ p) (hq : ':' ∉ q) :
    parseLine (markerChars ++ p ++ ':' :: (q ++ ':' :: r))
        = LineResult.item (IbmItem.header (pyStrip q)) ∧
      parseLine (markerChars ++ p ++ ':' :: q)
        = LineResult.item (IbmItem.header (pyStrip q)) := by
  have hmp : ':' ∉ markerChars ++ p := by
    intro hmem
    rcases List.mem_append.mp hmem with hm | hm
    · revert hm; decide
    · exact hp hm
  constructor
  · have hpre : markerChars.isPrefixOf
        (markerChars ++ p ++ ':' :: (q ++ ':' :: r)) = true := by
      rw [List.isPrefixOf_iff_prefix, List.append_assoc]
      exact List.prefix_append _ _
    rw [parseLine.eq_def, if_pos hpre]
    rw [pySplit_append_sep ':' (markerChars ++ p) (q ++ ':' :: r) hmp]
    rw [pySplit_append_sep ':' q r hq]
    rfl
  · have hpre : markerChars.isPrefixOf
        (markerChars ++ p ++ ':' :: q) = true := by
      rw [List.isPrefixOf_iff_prefix, List.append_assoc]
      exact List.prefix_append _ _
    rw [parseLine.eq_def, if_pos hpre]
    rw [pySplit_append_sep ':' (markerChars ++ p) q hmp]
    rw [pySplit_of_not_mem ':' q hq]
    rfl

/-- Claim C5, witness: the amended header rule evaluated on the concrete
lines `"* Code Page : 923:x"` and `"* Code Page : 923"`. -/
theorem claim5_witness :
    (':' ∉ ([' '] : List Char)) ∧ (':' ∉ " 923".data) ∧
      parseLine (markerChars ++ [' '] ++ ':' :: (" 923".data ++ ':' :: "x".data))
        = LineResult.item (IbmItem.header (pyStrip " 923".data)) ∧
      parseLine (markerChars ++ [' '] ++ ':' :: " 923".data)
        = LineResult.item (IbmItem.header (pyStrip " 923".data)) := by
  refine ⟨by decide, by decide, ?_⟩
  have h := claim5_amended [' '] " 923".data "x".data (by decide) (by decide)
  exact h

/-- Claim C9: parsing is a pure function of the input bytes — two runs of
`_parse_ibm_file` on the same byte buffer (one that decodes as 7-bit text)
yield the same sequence of header and record items. -/
theorem claim9_deterministic (bs : List Nat)
    (r1 r2 : List IbmItem × Option Exc)
    (_hascii : bs.all (fun b => b < 128) = true)
    (h1 : parse_ibm_bytes bs = r1) (h2 : parse_ibm_bytes bs = r2) :
    r1 = r2 := by
  rw [← h1, ← h2]

/-- Claim C9, witness: two parses of the concrete scenario file agree. -/
theorem claim9_witness :
    ((textFixed.map Char.toNat).all (fun b => b < 128) = true) ∧
      parse_ibm_bytes (textFixed.map Char.toNat)
        = parse_ibm_bytes (textFixed.map Char.toNat) :=
  ⟨by decide,
    claim9_deterministic (textFixed.map Char.toNat) _ _ (by decide) rfl rfl⟩

/-- Claim C10: a line that begins with the literal marker `"* Code Page"`
but contains no colon makes the parser raise `IndexError` (from
`line.split(":")[1]`, which lies outside the record branch's
`try`/`except`), instead of being skipped by the lenient policy. -/
theorem claim10_header_indexerror (l : List Char)
    (hm : markerChars.isPrefixOf l = true) (hc : ':' ∉ l) :
    parseLine l = LineResult.exc "IndexError" := by
  rw [parseLine.eq_def, if_pos hm, pySplit_of_not_mem ':' l hc]
  rfl

/-- Claim C10, witness: the colon-free header line `"* Code Page 437"`
raises `IndexError`. -/
theorem claim10_witness :
    (markerChars.isPrefixOf "* Code Page 437".data = true) ∧
      (':' ∉ "* Code Page 437".data) ∧
      parseLine "* Code Page 437".data = LineResult.exc "IndexError" :=
  ⟨by decide, by decide,
    claim10_header_indexerror "* Code Page 437".data (by decide) (by decide)⟩

theorem writeRecords_all_resolved (ubd : List (List Char × List Char)) :
    ∀ (rest : List IbmItem) (acc : List (List Char)),
      rest.all isRecordItem = true →
      rest.all (isResolvedRecord ubd) = true →
      writeRecords ubd rest acc = (acc ++ rest.map (fmtItem ubd), none) := by
  intro rest
  induction rest with
  | nil => intro acc _ _; simp [writeRecords]
  | cons it rest ih =>
    intro acc hr hs
    rw [List.all_cons, Bool.and_eq_true] at hr hs
    cases it with
    | header v => simp [isRecordItem] at hr
    | record h d =>
      cases hdg : dictGet ubd d with
      | none =>
        have : isResolvedRecord ubd (IbmItem.record h d) = true := hs.1
        rw [isResolvedRecord, hdg] at this
        simp at this
      | some u =>
        simp only [writeRecords, unpackItem, hdg]
        rw [ih (acc ++ [fmtLine h u d]) hr.2 hs.2]
        simp [fmtItem, hdg]

theorem writeRecords_keyerror (ubd : List (List Char × List Char)) :
    ∀ (rest : List IbmItem) (acc : List (List Char)),
      rest.all isRecordItem = true →
      (rest.any fun it => !isResolvedRecord ubd it) = true →
      writeRecords ubd rest acc
        = (acc ++ (rest.takeWhile (isResolvedRecord ubd)).map (fmtItem ubd),
            some "KeyError") := by
  intro rest
  induction rest with
  | nil => intro acc _ hany; simp at hany
  | cons it rest ih =>
    intro acc hr hany
    rw [List.all_cons, Bool.and_eq_true] at hr
    cases it with
    | header v => simp [isRecordItem] at hr
    | record h d =>
      cases hdg : dictGet ubd d with
      | none =>
        simp only [writeRecords, unpackItem, hdg]
        rw [List.takeWhile_cons_of_neg (by simp [isResolvedRecord, hdg])]
        simp
      | some u =>
        have hany' : (rest.any fun it => !isResolvedRecord ubd it) = true := by
          rw [List.any_cons] at hany
          simpa [isResolvedRecord, hdg] using hany
        simp only [writeRecords, unpackItem, hdg]
        rw [ih (acc ++ [fmtLine h u d]) hr.2 hany']
        rw [List.takeWhile_cons_of_pos (by simp [isResolvedRecord, hdg])]
        simp [fmtItem, hdg]

/-- Claim C4, counterexample: on a one-record file whose description is in
the map, the emitted line carries the byte value as `"0x41"` — the
`hex_number` the parser yields already includes the `"0x"` prefix — not as
the bare two-hex-digit `"41"` the claim states, so the claimed layout
`HH\t0xHHHH\t# DESCRIPTION\n` does not hold. -/
theorem claim4_counterexample :
    write_codepage_map ubdA textFixed
        = (["0x41\t0x0041\t# LATIN CAPITAL LETTER A\n".data], none) ∧
      "0x41\t0x0041\t# LATIN CAPITAL LETTER A\n".data
        ≠ "41\t0x0041\t# LATIN CAPITAL LETTER A\n".data := by
  exact ⟨by decide, by decide⟩

/-- Claim C4, amended: rewriting a vendor file whose every record
description is present in the map produces exactly one output line per
parsed record, in parser order, each line being the record's
`hex_number` — the `"0x"`-prefixed two-hex-digit byte value — a tab, the
stored codepoint string, a tab, `"# "` and the upper-cased description,
ending in a newline (`0xHH\t0xHHHH\t# DESCRIPTION\n`), with no exception
raised. -/
theorem claim4_amended (ubd : List (List Char × List Char)) (text : List Char)
    (first : IbmItem) (rest : List IbmItem)
    (hparse : parse_ibm_file text = (first :: rest, none))
    (hrec : rest.all isRecordItem = true)
    (hres : rest.all (isResolvedRecord ubd) = true) :
    write_codepage_map ubd text = (rest.map (fmtItem ubd), none) := by
  have h1 := writeRecords_all_resolved ubd rest [] hrec hres
  unfold write_codepage_map
  rw [hparse]
  simp [h1]

/-- Claim C4, witness: the amended rewrite property evaluated on the
concrete scenario file and map. -/
theorem claim4_witness :
    (parse_ibm_file textFixed
        = ([IbmItem.header "923".data,
            IbmItem.record "0x41".data "LATIN CAPITAL LETTER A".data],
            none)) ∧
      write_codepage_map ubdA textFixed
        = ([IbmItem.record "0x41".data "LATIN CAPITAL LETTER A".data].map
            (fmtItem ubdA), none) :=
  ⟨by decide,
    claim4_amended ubdA textFixed (IbmItem.header "923".data)
      [IbmItem.record "0x41".data "LATIN CAPITAL LETTER A".data]
      (by decide) (by decide) (by decide)⟩

/-- Claim C6: rewriting a file that contains a record whose description is
absent from `unicode_by_description` raises `KeyError` (a `LookupError`) at
the first such record: the written lines are exactly the formatted lines of
the records strictly before it — no placeholder is substituted for the
failing record and no later record is processed. -/
theorem claim6_unresolved (ubd : List (List Char × List Char))
    (text : List Char) (first : IbmItem) (rest : List IbmItem)
    (hparse : parse_ibm_file text = (first :: rest, none))
    (hrec : rest.all isRecordItem = true)
    (hmiss : (rest.any fun it => !isResolvedRecord ubd it) = true) :
    write_codepage_map ubd text
      = ((rest.takeWhile (isResolvedRecord ubd)).map (fmtItem ubd),
          some "KeyError") := by
  have h1 := writeRecords_keyerror ubd rest [] hrec hmiss
  unfold write_codepage_map
  rw [hparse]
  simp [h1]

/-- Claim C6, witness: rewriting the scenario file against an empty map
raises `KeyError` and writes no line. -/
theorem claim6_witness :
    (parse_ibm_file textFixed
        = ([IbmItem.header "923".data,
            IbmItem.record "0x41".data "LATIN CAPITAL LETTER A".data],
            none)) ∧
      write_codepage_map [] textFixed
        = (([IbmItem.record "0x41".data
              "LATIN CAPITAL LETTER A".data].takeWhile
                (isResolvedRecord [])).map (fmtItem []),
            some "KeyError") :=
  ⟨by decide,
    claim6_unresolved [] textFixed (IbmItem.header "923".data)
      [IbmItem.record "0x41".data "LATIN CAPITAL LETTER A".data]
      (by decide) (by decide) (by decide)⟩

/-- Claim C1, counterexample: on the claim's verbatim record line the
description text begins one space after the byte value, so `line[19:]`
starts inside it — the extracted, trimmed description is `"TTER A"`, not
`"LATIN CAPITAL LETTER A"`, and bootstrapping the claim's file with an
encoding where byte `0x41` decodes to `'A'` stores the entry
`"TTER A" ↦ "0x0041"`, while `"LATIN CAPITAL LETTER A"` is absent from the
resulting map. -/
theorem claim1_counterexample :
    parseLine recLiteral
        = LineResult.item (IbmItem.record "0x41".data "TTER A".data) ∧
      (update_description_map emptyMapData "latin1".data encA
          textLiteral).1.unicode_by_description
        = some [("TTER A".data, "0x0041".data)] ∧
      dictGet [("TTER A".data, "0x0041".data)]
          "LATIN CAPITAL LETTER A".data = none := by
  exact ⟨by decide, by decide, by decide⟩

/-- Claim C1, amended: bootstrapping a vendor file with header line
`"* Code Page           : 923"` and a record line carrying
`LATIN CAPITAL LETTER A` in the fixed-width description field that begins
at column 19 (`line[19:]`), under any encoding where byte `0x41` decodes to
`'A'`, records the encoding and stores exactly the entry
`"LATIN CAPITAL LETTER A" ↦ "0x0041"` in `unicode_by_description`. -/
theorem claim1_amended (enc : Nat → Option Char) (henc : enc 65 = some 'A') :
    update_description_map emptyMapData "latin1".data enc textFixed
      = ({ filenames := some [], encodings := some ["latin1".data],
           unicode_by_description
             := some [("LATIN CAPITAL LETTER A".data, "0x0041".data)] },
          none) := by
  have hp : parse_ibm_file textFixed
      = ([IbmItem.header "923".data,
          IbmItem.record "0x41".data "LATIN CAPITAL LETTER A".data],
          none) := by decide
  have hi : pyInt16 "0x41".data = some 65 := by decide
  have hf : dictInsert [] "LATIN CAPITAL LETTER A".data
      (formatCodepoint 'A'.toNat)
      = [("LATIN CAPITAL LETTER A".data, "0x0041".data)] := by decide
  have hg : get_unicode_by_description enc textFixed
      = Except.ok [("LATIN CAPITAL LETTER A".data, "0x0041".data)] := by
    unfold get_unicode_by_description
    rw [hp]
    simp only [resolveRecords, unpackItem, hi]
    rw [if_pos (by norm_num : (65 : Nat) < 256), henc]
    simp only [resolveRecords, hf]
  unfold update_description_map
  simp [emptyMapData, hg, dictUpdate, dictInsert]

/-- Claim C1, witness: the amended bootstrap property evaluated at the
concrete decode map `encA`. -/
theorem claim1_witness :
    encA 65 = some 'A' ∧
      update_description_map emptyMapData "latin1".data encA textFixed
        = ({ filenames := some [], encodings := some ["latin1".data],
             unicode_by_description
               := some [("LATIN CAPITAL LETTER A".data, "0x0041".data)] },
            none) :=
  ⟨rfl, claim1_amended encA rfl⟩

/-- Claim C7: when a call of `update_description_map` succeeds, calling it
again with the same encoding identifier, decode map and file text is a
no-op: the first call left the encoding in `encodings`, so the second call
takes the already-resolved branch and returns the state unchanged, raising
nothing. -/
theorem claim7_idempotent (d : PFData) (encId : List Char)
    (enc : Nat → Option Char) (text : List Char) (d' : PFData)
    (h : update_description_map d encId enc text = (d', none)) :
    update_description_map d' encId enc text = (d', none) := by
  simp only [update_description_map] at h ⊢
  split at h
  · simp at h
  next encs hencs =>
    split at h
    next hm =>
      simp only [Prod.mk.injEq, and_true] at h
      subst h
      simp [hencs, hm]
    next hm =>
      split at h
      · simp at h
      next ubd hubd =>
        split at h
        · simp at h
        next entries hget =>
          simp only [Prod.mk.injEq, and_true] at h
          subst h
          simp

theorem jsonStrs_map_str : ∀ xs : List (List Char),
    jsonStrs (xs.map Json.str) = some xs
  | [] => rfl
  | s :: rest => by simp [jsonStrs, jsonStrs_map_str rest]

theorem jsonPairs_map_str : ∀ u : List (List Char × List Char),
    jsonPairs (u.map fun p => (p.1, Json.str p.2)) = some u
  | [] => rfl
  | p :: rest => by
    obtain ⟨k, v⟩ := p
    simp [jsonPairs, jsonPairs_map_str rest]

theorem jsonToData_store (d : PFData) :
    jsonToData (store_description_map d) = some d := by
  have hFE : ¬(keyF = keyE) := by decide
  have hEF : ¬(keyE = keyF) := by decide
  have hFU : ¬(keyF = keyU) := by decide
  have hUF : ¬(keyU = keyF) := by decide
  have hEU : ¬(keyE = keyU) := by decide
  have hUE : ¬(keyU = keyE) := by decide
  obtain ⟨fs, es, u⟩ := d
  cases fs <;> cases es <;> cases u <;>
    simp [store_description_map, jsonToData, jfield, jlookup,
          jsonStrs_map_str, jsonPairs_map_str, hFE, hEF, hFU, hUF, hEU, hUE]

/-- Claim C8: round trip — serializing any description-map state with
`store_description_map` and loading the resulting file with
`retrieve_description_map` restores exactly the original state (the same
`unicode_by_description` mapping and the same resolved-encodings
collection), without raising. -/
theorem claim8_round_trip (d cur : PFData) :
    ∃ d' : PFData, jsonToData (store_description_map d) = some d' ∧
      retrieve_description_map cur (FileState.valid d') = (d, none) :=
  ⟨d, jsonToData_store d, rfl⟩

/-- Claim C7, witness: a successful bootstrap on the concrete scenario,
repeated, returns the once-bootstrapped state. -/
theorem claim7_witness :
    (update_description_map emptyMapData "latin1".data encA textFixed
        = ({ filenames := some [], encodings := some ["latin1".data],
             unicode_by_description
               := some [("LATIN CAPITAL LETTER A".data, "0x0041".data)] },
            none)) ∧
      update_description_map
          { filenames := some [], encodings := some ["latin1".data],
            unicode_by_description
              := some [("LATIN CAPITAL LETTER A".data, "0x0041".data)] }
          "latin1".data encA textFixed
        = ({ filenames := some [], encodings := some ["latin1".data],
             unicode_by_description
               := some [("LATIN CAPITAL LETTER A".data, "0x0041".data)] },
            none) :=
  ⟨by decide,
    claim7_idempotent emptyMapData "latin1".data encA textFixed _ (by decide)⟩
